import Mathlib

/-!
Verification of the resumable tile-processing scripts in
`scripts/download_process_lidar/`.

The Python sources are embedded shallowly:

* the progress record written by `save_txt` / read by `read_num_sample`
  becomes a pair `(required, downloaded)` (the file stores the string
  `"{required},{num_downloaded}"`);
* the per-tile filesystem state touched by `generate_and_execute_pipeline`
  (`download/download_tiles_mp.py`) becomes `TileState`: the optional log
  record, the destination `.laz` files (as an id-to-content association
  list) and the `temp_download` staging files (local id to content);
* the external PDAL engine is an explicit function parameter returning
  either the files it wrote to staging plus a point count, or an error
  together with the files it had already written before raising;
* `run_with_timeout` is modelled once at the outcome level (which
  exceptions the collection loop converts into result entries) and once
  at the timed level (when `AsyncResult.get(timeout)` marks an item as
  timed out, given each item's absolute completion time);
* the oversized-tile corrector `check_invalid_and_correct`
  (`invalid_filter/invalid_filter_mp.py`) is embedded over rational
  coordinates.
-/

namespace Usgs

/-- `read_num_sample` (download/download_tiles_mp.py lines 55-59): the log
file holds `"{required},{num_downloaded}"`; the function parses both
integers and returns the FIRST one, i.e. the `required` field.  A record is
the pair `(required, downloaded)` in that file order. -/
def read_num_sample (r : Nat × Nat) : Nat := r.1

/-- `prev_num_sample` (line 78): `read_num_sample(log_file) if exists(log_file)
else 0`. -/
def readPrev (log : Option (Nat × Nat)) : Nat :=
  match log with
  | some r => read_num_sample r
  | none => 0

/-- The record string written by `save_txt` (lines 47-52):
`file.write(f"{required},{num_downloaded}")`. -/
def recordString (required downloaded : Nat) : String :=
  toString required ++ "," ++ toString downloaded

/-- Observable file contents during `save_txt` (lines 47-52): `open(path, "w")`
first truncates the file (content becomes `""`), then the single `write`
call stores the full record.  The trace lists the successively observable
contents starting from the previous content `old`. -/
def save_txt_trace (old : String) (required downloaded : Nat) : List String :=
  [old, "", recordString required downloaded]

/-- An atomic replace never exposes anything but the old or the new
content to a concurrent reader. -/
def AtomicReplace (trace : List String) (old new : String) : Prop :=
  ∀ s ∈ trace, s = old ∨ s = new

/-- The polygon slice handed to the read and crop stages (lines 89, 91):
`polygons_str[prev_num_sample:num_sample]`. -/
def pipelineRequest (polys : List String) (prev n : Nat) : List String :=
  (polys.drop prev).take (n - prev)

/-- Writing a file named `k` with content `v` into a directory listing:
an existing entry with the same name is replaced in place, otherwise the
entry is appended.  Association lists here always have pairwise distinct
keys, as directory listings do. -/
def insertReplace (d : List (Nat × Nat)) (k v : Nat) : List (Nat × Nat) :=
  match d with
  | [] => [(k, v)]
  | p :: rest => if p.1 = k then (k, v) :: rest else p :: insertReplace rest k v

/-- The engine (or a rename) writing a batch of files into a directory. -/
def writeFiles (d : List (Nat × Nat)) (fs : List (Nat × Nat)) : List (Nat × Nat) :=
  fs.foldl (fun acc p => insertReplace acc p.1 p.2) d

/-- Line 110: `new_name = f"{file_prefix}_{prev_num_sample + cur_id}.laz"`. -/
def globalId (offset cur : Nat) : Nat := offset + cur

/-- Lines 108-111: every staged file `(cur_id, content)` is `os.rename`d to
destination name `prev_num_sample + cur_id`; on POSIX `os.rename` replaces
an existing destination file silently. -/
def promote (offset : Nat) (staged dest : List (Nat × Nat)) : List (Nat × Nat) :=
  staged.foldl (fun acc p => insertReplace acc (globalId offset p.1) p.2) dest

/-- Directory lookup: content of the file named `k`, if present. -/
def flookup (d : List (Nat × Nat)) (k : Nat) : Option Nat :=
  match d with
  | [] => none
  | p :: rest => if p.1 = k then some p.2 else flookup rest k

/-- Result of one engine invocation (`pipeline.execute()`):
either it returns a point count, having written `files` (local shard index,
content) into the staging directory, or it raises, with `files` the shards
it had already written before the exception. -/
inductive EngineResult where
  | ok (files : List (Nat × Nat)) (count : Nat)
  | err (files : List (Nat × Nat))
deriving DecidableEq, Repr

/-- Per-tile filesystem state: the `log/num_sample-downloaded.txt` record
(`(required, downloaded)` or absent), the destination `.laz` shard files
(global id, content) and the `temp_download` staging files (local id,
content).  Directory existence itself carries no information the claims
use, so only files are tracked. -/
structure TileState where
  log : Option (Nat × Nat)
  dest : List (Nat × Nat)
  temp : List (Nat × Nat)
deriving DecidableEq, Repr

/-- Classified return value of `generate_and_execute_pipeline`:
`skipped` is the early `return 0` of line 80-82, `success` the
`return count` / `return 0` of the two commit paths, `failed` the
error-string return of the `except` handler (lines 124-127). -/
inductive RunResult where
  | skipped
  | success (count : Nat)
  | failed
deriving DecidableEq, Repr

/-- `generate_and_execute_pipeline` (download/download_tiles_mp.py lines
62-127) for one tile, with the engine as an explicit parameter:

* read `prev_num_sample` from the log (0 when absent);
* if `prev_num_sample >= num_sample`, return 0 without touching anything;
* otherwise invoke the engine on `polygons_str[prev:num_sample]`, its
  output landing in `temp_download` on top of whatever was already there
  (`os.makedirs(exist_ok=True)`, never cleaned);
* an exception leaves destination and log untouched (the `except` handler
  only returns an error string);
* an empty `os.listdir(temp)` recounts the destination `.laz` files and
  commits `(num_sample, count)`, returning 0;
* otherwise every staged file is renamed to `prev_num_sample + cur_id`
  in the destination, the destination is recounted with
  `len(glob("*.laz"))`, and `(num_sample, count)` is committed. -/
def runTile (e : List String → EngineResult) (polys : List String) (n : Nat)
    (s : TileState) : TileState × RunResult :=
  if n ≤ readPrev s.log then (s, RunResult.skipped)
  else
    match e (pipelineRequest polys (readPrev s.log) n) with
    | EngineResult.err files =>
        ({ s with temp := writeFiles s.temp files }, RunResult.failed)
    | EngineResult.ok files count =>
        if writeFiles s.temp files = [] then
          ({ s with temp := writeFiles s.temp files,
                    log := some (n, s.dest.length) }, RunResult.success 0)
        else
          ({ log := some (n, (promote (readPrev s.log) (writeFiles s.temp files) s.dest).length),
             dest := promote (readPrev s.log) (writeFiles s.temp files) s.dest,
             temp := [] }, RunResult.success count)

/-- Resume offset used by the partitioner: the stored record read with
`read_num_sample`, or 0 when the log file is absent. -/
def resume_offset (log : Option (Nat × Nat)) : Nat := readPrev log

/-- Work-item filter of the top-level `download_tiles_mp.py` (lines
232-239): with a log file present, keep the tile iff
`prev_num_sample < num_sample and prev_num_sample < num_available_polygons`;
with no log file, keep it unconditionally. -/
def partitionerEmits (log : Option (Nat × Nat)) (num_sample num_available : Nat) : Bool :=
  match log with
  | some r => decide (read_num_sample r < num_sample) && decide (read_num_sample r < num_available)
  | none => true

/-- Work-item filter of `download/download_tiles_mp.py` (lines 178-180):
keep the tile iff its log file does not exist. -/
def partitionerEmitsSimple (log : Option (Nat × Nat)) : Bool := log.isNone

/-- `filter_noise` (noise_filter/noise_filter_mp.py lines 76-81) at the
filesystem level: if the output file already exists the item is skipped,
otherwise the engine output is written at the output path. -/
def filter_noise_step (engineOut : Nat) (outPath : Nat)
    (files : List (Nat × Nat)) : List (Nat × Nat) :=
  if (files.map Prod.fst).contains outPath then files
  else files ++ [(outPath, engineOut)]

/-- Exception classes relevant to the collection loop of
`invalid_filter_mp.py`'s `run_with_timeout` (lines 38-54). -/
inductive ExcKind where
  | valueError
  | laspyError
  | lazrsError
  | osError
  | otherError
deriving DecidableEq, Repr

/-- What one worker invocation produced, as seen by `AsyncResult.get`:
a returned value, a timeout, or an exception re-raised in the parent. -/
inductive ItemOutcome where
  | ok (msg : String)
  | timedOut
  | raised (e : ExcKind)
deriving DecidableEq, Repr

/-- The `except (ValueError, laspy.errors.LaspyException, lazrs.LazrsError)`
clause of `invalid_filter_mp.py` lines 50-52: only these classes are turned
into result entries. -/
def caughtByFilter : ExcKind → Bool
  | ExcKind.valueError => true
  | ExcKind.laspyError => true
  | ExcKind.lazrsError => true
  | _ => false

/-- A printable tag for an exception entry (`str(e)` in the source). -/
def errString : ExcKind → String
  | ExcKind.valueError => "ValueError"
  | ExcKind.laspyError => "LaspyException"
  | ExcKind.lazrsError => "LazrsError"
  | ExcKind.osError => "OSError"
  | ExcKind.otherError => "Exception"

/-- The collection loop of `run_with_timeout` in `invalid_filter_mp.py`
(lines 44-52): walks the async results in submission order, appending one
entry per item; a `TimeoutError` appends `"timeout error"`, the three
enumerated exception classes append `str(e)`, and any other exception
re-raised by `get` propagates out of the loop, losing the remaining
items' results. -/
def collectInvalidFilter : List ItemOutcome → Except ExcKind (List String)
  | [] => Except.ok []
  | ItemOutcome.ok m :: rest => (collectInvalidFilter rest).map (m :: ·)
  | ItemOutcome.timedOut :: rest =>
      (collectInvalidFilter rest).map (fun rs => "timeout error" :: rs)
  | ItemOutcome.raised ex :: rest =>
      if caughtByFilter ex then (collectInvalidFilter rest).map (errString ex :: ·)
      else Except.error ex

/-- What a download worker hands back through the pool: the worker body of
`download/download_tiles_mp.py` wraps everything in `try/except` and
returns either a count or an error string, so at `get` time only a value
or a `TimeoutError` can appear. -/
inductive DlOutcome where
  | ok (count : Nat)
  | errMsg (s : String)
  | timedOut
deriving DecidableEq, Repr

/-- One result-list entry per download submission (`run_with_timeout`,
download/download_tiles_mp.py lines 130-143): a timeout appends `None`,
anything else appends the worker's returned value. -/
def dlEntry : DlOutcome → Option (Nat ⊕ String)
  | DlOutcome.ok c => some (Sum.inl c)
  | DlOutcome.errMsg s => some (Sum.inr s)
  | DlOutcome.timedOut => none

/-- The whole download collection loop: one entry per submission, in
submission order; nothing propagates because the worker catches its own
exceptions. -/
def collectDownload (outs : List DlOutcome) : List (Option (Nat ⊕ String)) :=
  outs.map dlEntry

/-- Timed model of `run_with_timeout` (download/download_tiles_mp.py lines
130-143).  All items are submitted up front; item `i` is given with its
absolute completion time `tᵢ` and value `vᵢ` (the pool is assumed at least
as wide as the batch, so every item starts at time 0).  The parent then
collects sequentially: `get(timeout=T)` at parent clock `c` returns the
value once the item completes, i.e. when `tᵢ ≤ c + T` (the clock advancing
to `max c tᵢ`), and otherwise raises `TimeoutError` at `c + T`, recording
`none` for that item. -/
def collectTimed (T : Nat) (clock : Nat) : List (Nat × Nat) → List (Option Nat)
  | [] => []
  | (t, v) :: rest =>
      if t ≤ clock + T then some v :: collectTimed T (max clock t) rest
      else none :: collectTimed T (clock + T) rest

/-- Minimum of the values of a nonempty coordinate list (`arr.min()`);
junk value 0 on the empty list, which never arises from a point cloud. -/
def listMin : List ℚ → ℚ
  | [] => 0
  | a :: rest => rest.foldl min a

/-- Maximum of the values of a coordinate list (`arr.max()`). -/
def listMax : List ℚ → ℚ
  | [] => 0
  | a :: rest => rest.foldl max a

/-- The x coordinates of a tile's points (`infile.x`). -/
def xvals (pts : List (ℚ × ℚ)) : List ℚ := pts.map Prod.fst

/-- The y coordinates of a tile's points (`infile.y`). -/
def yvals (pts : List (ℚ × ℚ)) : List ℚ := pts.map Prod.snd

/-- `x_length = x_range[1] - x_range[0]` (invalid_filter_mp.py line 111). -/
def x_length (pts : List (ℚ × ℚ)) : ℚ := listMax (xvals pts) - listMin (xvals pts)

/-- `y_length = y_range[1] - y_range[0]` (invalid_filter_mp.py line 111). -/
def y_length (pts : List (ℚ × ℚ)) : ℚ := listMax (yvals pts) - listMin (yvals pts)

/-- `x_center = (x_array.min() + x_array.max()) / 2` (line 93). -/
def center (arr : List ℚ) : ℚ := (listMin arr + listMax arr) / 2

/-- `return_bigger_tile_mask` (invalid_filter_mp.py lines 91-95): the mask
`arr < center` if it selects at least as many points as `arr >= center`,
otherwise the latter. -/
def return_bigger_tile_mask (arr : List ℚ) : List Bool :=
  if (arr.map (fun v => decide (v < center arr))).count true ≥
      (arr.map (fun v => decide (center arr ≤ v))).count true then
    arr.map (fun v => decide (v < center arr))
  else
    arr.map (fun v => decide (center arr ≤ v))

/-- `infile.points[mask]`: keep the points whose mask entry is true. -/
def applyMask (pts : List (ℚ × ℚ)) (mask : List Bool) : List (ℚ × ℚ) :=
  ((pts.zip mask).filter (fun pm => pm.2)).map Prod.fst

/-- `check_invalid_and_correct` (invalid_filter_mp.py lines 98-125), point
level: if either extent exceeds 1000 the retained subset is written,
masked by `return_bigger_tile_mask(x if x_length >= y_length else y)`;
otherwise the file is copied unchanged. -/
def check_invalid_and_correct (pts : List (ℚ × ℚ)) : List (ℚ × ℚ) :=
  if x_length pts > 1000 ∨ y_length pts > 1000 then
    applyMask pts
      (return_bigger_tile_mask (if x_length pts ≥ y_length pts then xvals pts else yvals pts))
  else pts

/-- The corrector as the spec's §4.6 words describe it, for the refinement
comparison: if both extents are within the threshold pass the points
through; otherwise partition at the arithmetic midpoint of the larger
axis into the below-center and at-or-above-center sets and retain the
larger one, ties favouring the below-center set. -/
def spec_corrector (pts : List (ℚ × ℚ)) : List (ℚ × ℚ) :=
  if x_length pts ≤ 1000 ∧ y_length pts ≤ 1000 then pts
  else
    let axis : (ℚ × ℚ) → ℚ := if x_length pts ≥ y_length pts then Prod.fst else Prod.snd
    let below := pts.filter (fun p => decide (axis p < center (pts.map axis)))
    let above := pts.filter (fun p => decide (center (pts.map axis) ≤ axis p))
    if below.length ≥ above.length then below else above

/-! ## Helper lemmas -/

theorem applyMask_map (pts : List (ℚ × ℚ)) (f : (ℚ × ℚ) → ℚ) (q : ℚ → Bool) :
    applyMask pts ((pts.map f).map q) = pts.filter (fun p => q (f p)) := by
  induction pts with
  | nil => rfl
  | cons p rest ih =>
    by_cases h : q (f p) <;>
      simp_all [applyMask, List.filter_cons]

theorem count_true_map (pts : List (ℚ × ℚ)) (f : (ℚ × ℚ) → ℚ) (q : ℚ → Bool) :
    ((pts.map f).map q).count true = (pts.filter (fun p => q (f p))).length := by
  induction pts with
  | nil => rfl
  | cons p rest ih =>
    by_cases h : q (f p) <;>
      simp_all [List.count_cons, List.filter_cons]

theorem filter_split_length (pts : List (ℚ × ℚ)) (f : (ℚ × ℚ) → ℚ) (c : ℚ) :
    (pts.filter (fun p => decide (f p < c))).length
      + (pts.filter (fun p => decide (c ≤ f p))).length = pts.length := by
  induction pts with
  | nil => rfl
  | cons p rest ih =>
    rcases lt_or_ge (f p) c with h | h
    · simp [List.filter_cons, h, not_le.mpr h]
      omega
    · simp [List.filter_cons, h, not_lt.mpr h]
      omega

theorem corrector_axis (pts : List (ℚ × ℚ)) (f : (ℚ × ℚ) → ℚ) :
    applyMask pts (return_bigger_tile_mask (pts.map f)) =
      if (pts.filter (fun p => decide (f p < center (pts.map f)))).length ≥
          (pts.filter (fun p => decide (center (pts.map f) ≤ f p))).length
      then pts.filter (fun p => decide (f p < center (pts.map f)))
      else pts.filter (fun p => decide (center (pts.map f) ≤ f p)) := by
  unfold return_bigger_tile_mask
  rw [count_true_map pts f (fun v => decide (v < center (pts.map f))),
      count_true_map pts f (fun v => decide (center (pts.map f) ≤ v))]
  by_cases h : (pts.filter (fun p => decide (f p < center (pts.map f)))).length ≥
      (pts.filter (fun p => decide (center (pts.map f) ≤ f p))).length
  · rw [if_pos h, if_pos h, applyMask_map]
  · rw [if_neg h, if_neg h, applyMask_map]

theorem check_eq_spec (pts : List (ℚ × ℚ)) :
    check_invalid_and_correct pts = spec_corrector pts := by
  unfold check_invalid_and_correct spec_corrector
  by_cases hx : x_length pts ≤ 1000 ∧ y_length pts ≤ 1000
  · rw [if_neg (by push_neg; exact hx), if_pos hx]
  · rw [if_pos (by rcases not_and_or.mp hx with h | h
                   · exact Or.inl (not_le.mp h)
                   · exact Or.inr (not_le.mp h)),
       if_neg hx]
    by_cases ha : x_length pts ≥ y_length pts
    · simp only [ha, if_true]
      exact corrector_axis pts Prod.fst
    · simp only [ha, if_false]
      exact corrector_axis pts Prod.snd

theorem pipelineRequest_get (polys : List String) (prev n j : Nat)
    (h : j < n - prev) : (pipelineRequest polys prev n)[j]? = polys[prev + j]? := by
  unfold pipelineRequest
  rw [List.getElem?_take_of_lt h, List.getElem?_drop]

theorem runTile_congr (e e' : List String → EngineResult) (polys : List String)
    (n : Nat) (s : TileState)
    (h : e (pipelineRequest polys (readPrev s.log) n)
       = e' (pipelineRequest polys (readPrev s.log) n)) :
    runTile e polys n s = runTile e' polys n s := by
  unfold runTile
  rw [h]

theorem kept_ge_half (pts : List (ℚ × ℚ)) (f : (ℚ × ℚ) → ℚ) (c : ℚ) :
    2 * (if (pts.filter (fun p => decide (f p < c))).length ≥
          (pts.filter (fun p => decide (c ≤ f p))).length
        then pts.filter (fun p => decide (f p < c))
        else pts.filter (fun p => decide (c ≤ f p))).length ≥ pts.length := by
  have h := filter_split_length pts f c
  by_cases hc : (pts.filter (fun p => decide (f p < c))).length ≥
      (pts.filter (fun p => decide (c ≤ f p))).length
  · rw [if_pos hc]; omega
  · rw [if_neg hc]; omega

theorem flookup_insertReplace_self (d : List (Nat × Nat)) (k v : Nat) :
    flookup (insertReplace d k v) k = some v := by
  induction d with
  | nil => simp [insertReplace, flookup]
  | cons p rest ih =>
    by_cases h : p.1 = k
    · simp [insertReplace, h, flookup]
    · simp [insertReplace, h, flookup, ih]

theorem flookup_insertReplace_ne (d : List (Nat × Nat)) (k v k2 : Nat) (h : k2 ≠ k) :
    flookup (insertReplace d k v) k2 = flookup d k2 := by
  induction d with
  | nil => simp [insertReplace, flookup, Ne.symm h]
  | cons p rest ih =>
    by_cases hp : p.1 = k
    · have hp2 : ¬ p.1 = k2 := fun hc => h ((hp ▸ hc).symm)
      simp [insertReplace, hp, flookup, Ne.symm h, hp2]
    · simp [insertReplace, hp, flookup, ih]

theorem promote_cons (offset : Nat) (q : Nat × Nat) (rest dest : List (Nat × Nat)) :
    promote offset (q :: rest) dest
      = promote offset rest (insertReplace dest (globalId offset q.1) q.2) := rfl

theorem flookup_promote_notin_aux (offset : Nat) :
    ∀ (staged dest : List (Nat × Nat)) (k : Nat),
    (∀ p ∈ staged, globalId offset p.1 ≠ k) →
    flookup (promote offset staged dest) k = flookup dest k := by
  intro staged
  induction staged with
  | nil => intro dest k _; rfl
  | cons q rest ih =>
    intro dest k h
    rw [promote_cons, ih _ k (fun p hp => h p (List.mem_cons_of_mem _ hp))]
    exact flookup_insertReplace_ne dest (globalId offset q.1) q.2 k
      (fun hk => h q (List.mem_cons_self _ _) hk.symm)

theorem runTile_skip (e : List String → EngineResult) (polys : List String) (n : Nat)
    (s : TileState) (h : n ≤ readPrev s.log) :
    runTile e polys n s = (s, RunResult.skipped) := by
  unfold runTile; rw [if_pos h]

theorem runTile_eval_err (e : List String → EngineResult) (polys : List String) (n : Nat)
    (s : TileState) (fs : List (Nat × Nat)) (hs : ¬ n ≤ readPrev s.log)
    (he : e (pipelineRequest polys (readPrev s.log) n) = EngineResult.err fs) :
    runTile e polys n s = ({ s with temp := writeFiles s.temp fs }, RunResult.failed) := by
  unfold runTile; rw [if_neg hs, he]

theorem runTile_eval_ok_empty (e : List String → EngineResult) (polys : List String) (n : Nat)
    (s : TileState) (fs : List (Nat × Nat)) (c : Nat) (hs : ¬ n ≤ readPrev s.log)
    (he : e (pipelineRequest polys (readPrev s.log) n) = EngineResult.ok fs c)
    (hemp : writeFiles s.temp fs = []) :
    runTile e polys n s =
      ({ s with temp := writeFiles s.temp fs, log := some (n, s.dest.length) },
        RunResult.success 0) := by
  unfold runTile
  rw [if_neg hs, he]
  dsimp only
  rw [if_pos hemp]

theorem runTile_eval_ok_move (e : List String → EngineResult) (polys : List String) (n : Nat)
    (s : TileState) (fs : List (Nat × Nat)) (c : Nat) (hs : ¬ n ≤ readPrev s.log)
    (he : e (pipelineRequest polys (readPrev s.log) n) = EngineResult.ok fs c)
    (hemp : ¬ writeFiles s.temp fs = []) :
    runTile e polys n s =
      ({ log := some (n, (promote (readPrev s.log) (writeFiles s.temp fs) s.dest).length),
         dest := promote (readPrev s.log) (writeFiles s.temp fs) s.dest,
         temp := [] }, RunResult.success c) := by
  unfold runTile
  rw [if_neg hs, he]
  dsimp only
  rw [if_neg hemp]

theorem runTile_success_log (e : List String → EngineResult) (polys : List String) (n : Nat)
    (s : TileState) (c : Nat) (h : (runTile e polys n s).2 = RunResult.success c) :
    ((runTile e polys n s).1).log = some (n, ((runTile e polys n s).1).dest.length) := by
  by_cases hs : n ≤ readPrev s.log
  · rw [runTile_skip e polys n s hs] at h; exact absurd h (by simp)
  · cases he : e (pipelineRequest polys (readPrev s.log) n) with
    | err fs =>
      rw [runTile_eval_err e polys n s fs hs he] at h
      exact absurd h (by simp)
    | ok fs c2 =>
      by_cases hemp : writeFiles s.temp fs = []
      · rw [runTile_eval_ok_empty e polys n s fs c2 hs he hemp]
      · rw [runTile_eval_ok_move e polys n s fs c2 hs he hemp]

theorem runTile_success_temp (e : List String → EngineResult) (polys : List String) (n : Nat)
    (s : TileState) (c : Nat) (h : (runTile e polys n s).2 = RunResult.success c) :
    ((runTile e polys n s).1).temp = [] := by
  by_cases hs : n ≤ readPrev s.log
  · rw [runTile_skip e polys n s hs] at h; exact absurd h (by simp)
  · cases he : e (pipelineRequest polys (readPrev s.log) n) with
    | err fs =>
      rw [runTile_eval_err e polys n s fs hs he] at h
      exact absurd h (by simp)
    | ok fs c2 =>
      by_cases hemp : writeFiles s.temp fs = []
      · rw [runTile_eval_ok_empty e polys n s fs c2 hs he hemp]
        exact hemp
      · rw [runTile_eval_ok_move e polys n s fs c2 hs he hemp]

theorem runTile_failed_frame (e : List String → EngineResult) (polys : List String) (n : Nat)
    (s : TileState) (h : (runTile e polys n s).2 = RunResult.failed) :
    ((runTile e polys n s).1).dest = s.dest ∧ ((runTile e polys n s).1).log = s.log := by
  by_cases hs : n ≤ readPrev s.log
  · rw [runTile_skip e polys n s hs]; exact ⟨rfl, rfl⟩
  · cases he : e (pipelineRequest polys (readPrev s.log) n) with
    | err fs =>
      rw [runTile_eval_err e polys n s fs hs he]
      exact ⟨rfl, rfl⟩
    | ok fs c2 =>
      by_cases hemp : writeFiles s.temp fs = []
      · rw [runTile_eval_ok_empty e polys n s fs c2 hs he hemp] at h
        exact absurd h (by simp)
      · rw [runTile_eval_ok_move e polys n s fs c2 hs he hemp] at h
        exact absurd h (by simp)

theorem runTile_skipped_frame (e : List String → EngineResult) (polys : List String) (n : Nat)
    (s : TileState) (h : (runTile e polys n s).2 = RunResult.skipped) :
    (runTile e polys n s).1 = s := by
  by_cases hs : n ≤ readPrev s.log
  · rw [runTile_skip e polys n s hs]
  · cases he : e (pipelineRequest polys (readPrev s.log) n) with
    | err fs =>
      rw [runTile_eval_err e polys n s fs hs he] at h
      exact absurd h (by simp)
    | ok fs c2 =>
      by_cases hemp : writeFiles s.temp fs = []
      · rw [runTile_eval_ok_empty e polys n s fs c2 hs he hemp] at h
        exact absurd h (by simp)
      · rw [runTile_eval_ok_move e polys n s fs c2 hs he hemp] at h
        exact absurd h (by simp)

theorem runTile_twice_dest_log (e : List String → EngineResult) (polys : List String)
    (n : Nat) (s : TileState) :
    ((runTile e polys n (runTile e polys n s).1).1).dest = ((runTile e polys n s).1).dest ∧
    ((runTile e polys n (runTile e polys n s).1).1).log = ((runTile e polys n s).1).log := by
  by_cases hs : n ≤ readPrev s.log
  · simp [runTile_skip e polys n s hs]
  · cases he : e (pipelineRequest polys (readPrev s.log) n) with
    | err fs =>
      rw [runTile_eval_err e polys n s fs hs he]
      dsimp only
      rw [runTile_eval_err e polys n { s with temp := writeFiles s.temp fs } fs hs he]
      exact ⟨rfl, rfl⟩
    | ok fs c2 =>
      by_cases hemp : writeFiles s.temp fs = []
      · rw [runTile_eval_ok_empty e polys n s fs c2 hs he hemp]
        dsimp only
        rw [runTile_skip e polys n
          { s with temp := writeFiles s.temp fs, log := some (n, s.dest.length) } (le_refl n)]
        exact ⟨rfl, rfl⟩
      · rw [runTile_eval_ok_move e polys n s fs c2 hs he hemp]
        dsimp only
        rw [runTile_skip e polys n
          { log := some (n, (promote (readPrev s.log) (writeFiles s.temp fs) s.dest).length),
            dest := promote (readPrev s.log) (writeFiles s.temp fs) s.dest,
            temp := [] } (le_refl n)]
        exact ⟨rfl, rfl⟩

/-! ## C1: what the progress read returns and what the pipeline requests -/

/-- C1 (counterexample): the claim says `get` returns the completed count
and that, for a record with `0 < completed < required`, the next run
requests `[completed, target)`.  On the record `(required, downloaded) =
(5, 3)` the read returns 5, not the completed count 3, and with target 7
the pipeline requests the slice `[5, 7)`, not `[3, 7)`. -/
theorem C1_counterexample :
    read_num_sample (5, 3) = 5 ∧
    readPrev (some (5, 3)) = 5 ∧
    (5 : Nat) ≠ 3 ∧
    pipelineRequest ["p0", "p1", "p2", "p3", "p4", "p5", "p6"] (readPrev (some (5, 3))) 7
      = ["p5", "p6"] ∧
    pipelineRequest ["p0", "p1", "p2", "p3", "p4", "p5", "p6"] 3 7
      = ["p3", "p4", "p5", "p6"] := by
  refine ⟨rfl, rfl, by decide, rfl, rfl⟩

/-- C1 (amended): the progress read returns the `required` field stored in
the record (the target of the run that wrote it), 0 when the record is
absent; the pipeline's read and crop stages are sliced from that offset up
to the target count — position `j` of the request is polygon `prev + j` —
and the run depends on the engine only through that slice, so indices
below the offset are never re-requested. -/
theorem C1_resume_read :
    (∀ req d : Nat, readPrev (some (req, d)) = req) ∧
    (readPrev (none : Option (Nat × Nat)) = 0) ∧
    (∀ (polys : List String) (prev n j : Nat), j < n - prev →
      (pipelineRequest polys prev n)[j]? = polys[prev + j]?) ∧
    (∀ (e e' : List String → EngineResult) (polys : List String) (n : Nat) (s : TileState),
      e (pipelineRequest polys (readPrev s.log) n)
        = e' (pipelineRequest polys (readPrev s.log) n) →
      runTile e polys n s = runTile e' polys n s) :=
  ⟨fun _ _ => rfl, rfl, pipelineRequest_get, runTile_congr⟩

/-- C1 (witness): the amended statement applied at concrete inputs. -/
theorem C1_resume_read_witness :
    (pipelineRequest ["p0", "p1", "p2"] 1 3)[0]? = ["p0", "p1", "p2"][1 + 0]? ∧
    runTile (fun l => EngineResult.ok [] l.length) ["p0"] 1 ⟨none, [], []⟩
      = runTile (fun l => EngineResult.ok [] (l.length + 0)) ["p0"] 1 ⟨none, [], []⟩ :=
  ⟨C1_resume_read.2.2.1 ["p0", "p1", "p2"] 1 3 0 (by decide),
   C1_resume_read.2.2.2 (fun l => EngineResult.ok [] l.length)
     (fun l => EngineResult.ok [] (l.length + 0)) ["p0"] 1 ⟨none, [], []⟩ rfl⟩

/-! ## C4: partitioner emission condition -/

/-- C4 (counterexample): the claim's iff fails on both scripts.  Top-level
script: with no record, a tile with zero available sub-regions is still
emitted although `resume_offset < number_of_available_subregions` is false.
`download/` script: a tile with record `(3, 3)`, target 5 and 10 available
sub-regions satisfies both conjuncts yet is not emitted. -/
theorem C4_counterexample :
    partitionerEmits none 100 0 = true ∧
    ¬ (resume_offset none < 100 ∧ resume_offset none < 0) ∧
    partitionerEmitsSimple (some (3, 3)) = false ∧
    (resume_offset (some (3, 3)) < 5 ∧ resume_offset (some (3, 3)) < 10) := by
  decide

/-- C4 (amended): in the top-level script, a tile with a progress record is
emitted iff the stored value is below both the target count and the number
of available sub-regions, and a tile without a record is always emitted
(the two conditions are not checked for it); the `download/` variant emits
iff the record is absent.  A tile committed at target `n` by a successful
run is not re-emitted for target `n`. -/
theorem C4_emission :
    (∀ (r : Nat × Nat) (n a : Nat),
      partitionerEmits (some r) n a = true ↔ read_num_sample r < n ∧ read_num_sample r < a) ∧
    (∀ n a : Nat, partitionerEmits none n a = true) ∧
    (∀ log : Option (Nat × Nat), partitionerEmitsSimple log = true ↔ log = none) ∧
    (∀ (e : List String → EngineResult) (polys : List String) (n a : Nat) (s : TileState)
      (c : Nat), (runTile e polys n s).2 = RunResult.success c →
      partitionerEmits ((runTile e polys n s).1).log n a = false) := by
  refine ⟨?_, ?_, ?_, ?_⟩
  · intro r n a
    simp [partitionerEmits]
  · intro n a
    rfl
  · intro log
    cases log <;> simp [partitionerEmitsSimple]
  · intro e polys n a s c h
    unfold runTile at *
    by_cases hskip : n ≤ readPrev s.log
    · simp [hskip] at h
    · simp only [hskip, if_false]
      simp only [hskip, if_false] at h
      cases he : e (pipelineRequest polys (readPrev s.log) n) with
      | err files => simp [he] at h
      | ok files count =>
        simp only [he] at h ⊢
        by_cases hemp : writeFiles s.temp files = []
        · simp [hemp, partitionerEmits, read_num_sample]
        · simp [hemp, partitionerEmits, read_num_sample]

/-- C4 (witness): the amended statement applied at concrete inputs; the
successful run commits `(1, 1)` and is then filtered out for target 1. -/
theorem C4_emission_witness :
    (partitionerEmits (some (0, 0)) 1 1 = true ↔
      read_num_sample (0, 0) < 1 ∧ read_num_sample (0, 0) < 1) ∧
    partitionerEmits
      ((runTile (fun _ => EngineResult.ok [(0, 1)] 5) ["a"] 1 ⟨none, [], []⟩).1).log 1 7
      = false :=
  ⟨C4_emission.1 (0, 0) 1 1,
   C4_emission.2.2.2 (fun _ => EngineResult.ok [(0, 1)] 5) ["a"] 1 7 ⟨none, [], []⟩ 5 rfl⟩

/-! ## C6: the progress commit is not an atomic replace -/

/-- C6 (counterexample): `save_txt` opens the record file with mode `"w"`,
which truncates it before the write; a reader interleaved between the
truncation and the write observes the empty string, which is neither the
old record `"5,5"` nor the new record `"7,6"`, so the commit is not an
atomic replace. -/
theorem C6_counterexample :
    ¬ AtomicReplace (save_txt_trace "5,5" 7 6) "5,5" (recordString 7 6) := by
  intro h
  rcases h "" (by simp [save_txt_trace]) with h1 | h1
  · exact absurd h1 (by decide)
  · exact absurd h1 (by decide)

/-- C6 (amended): each commit truncates the record file and then writes the
full `required,completed` record in a single write: an interleaved reader
observes the old record, the empty (truncated) file, or the complete new
record — never any other partial value — and the final content is the
complete new record. -/
theorem C6_commit_trace : ∀ (old : String) (required downloaded : Nat),
    (∀ s ∈ save_txt_trace old required downloaded,
      s = old ∨ s = "" ∨ s = recordString required downloaded) ∧
    (save_txt_trace old required downloaded).getLast? =
      some (recordString required downloaded) := by
  intro old r d
  refine ⟨?_, rfl⟩
  intro s hs
  simp only [save_txt_trace, List.mem_cons, List.mem_singleton, List.not_mem_nil] at hs
  rcases hs with h | h | h | h
  · exact Or.inl h
  · exact Or.inr (Or.inl h)
  · exact Or.inr (Or.inr h)
  · exact absurd h (by simp)

/-- C6 (witness): the amended statement applied to the commit of `(9, 4)`
over the previous record `"1,1"`. -/
theorem C6_commit_trace_witness :
    ("" = "1,1" ∨ "" = "" ∨ "" = recordString 9 4) ∧
    (save_txt_trace "1,1" 9 4).getLast? = some (recordString 9 4) :=
  ⟨(C6_commit_trace "1,1" 9 4).1 "" (by simp [save_txt_trace]),
   (C6_commit_trace "1,1" 9 4).2⟩

/-! ## C2: idempotence of a second run -/

/-- C2 (confirmed): with a fixed registry entry and target, a tile whose
recorded progress already satisfies the target is skipped — the state is
untouched and the run is independent of the engine, so no engine
invocation, file move or progress commit happens — and a second run right
after a first one leaves the destination file set and the progress record
exactly as the first run left them.  The noise-filter variant is likewise
idempotent: re-running `filter_noise` adds nothing once the output file
exists. -/
theorem C2_idempotence : ∀ (e : List String → EngineResult) (polys : List String)
    (n : Nat) (s : TileState),
    (n ≤ readPrev s.log →
      runTile e polys n s = (s, RunResult.skipped) ∧
      ∀ e' : List String → EngineResult, runTile e polys n s = runTile e' polys n s) ∧
    (((runTile e polys n (runTile e polys n s).1).1).dest = ((runTile e polys n s).1).dest ∧
     ((runTile e polys n (runTile e polys n s).1).1).log = ((runTile e polys n s).1).log) ∧
    (∀ engineOut outPath : Nat, ∀ fs : List (Nat × Nat),
      filter_noise_step engineOut outPath (filter_noise_step engineOut outPath fs)
        = filter_noise_step engineOut outPath fs) := by
  intro e polys n s
  refine ⟨?_, runTile_twice_dest_log e polys n s, ?_⟩
  · intro h
    exact ⟨runTile_skip e polys n s h,
      fun e' => (runTile_skip e polys n s h).trans (runTile_skip e' polys n s h).symm⟩
  · intro eo op fs
    unfold filter_noise_step
    by_cases h : (fs.map Prod.fst).contains op
    · rw [if_pos h, if_pos h]
    · rw [if_neg h, if_pos (by simp)]

/-- C2 (witness): the skip clause applied at a tile whose record `(5, 5)`
already satisfies target 5. -/
theorem C2_idempotence_witness :
    runTile (fun _ => EngineResult.ok [] 0) [] 5 ⟨some (5, 5), [], []⟩
      = (⟨some (5, 5), [], []⟩, RunResult.skipped) :=
  (((C2_idempotence (fun _ => EngineResult.ok [] 0) [] 5 ⟨some (5, 5), [], []⟩).1)
    (by decide)).1

/-! ## C3: the committed count is an authoritative recount -/

/-- C3 (confirmed): whenever `generate_and_execute_pipeline` commits (both
on the empty-staging path and after promoting staged files), the
`downloaded` value it writes equals the number of `.laz` files present in
the destination directory after the run — it is recomputed with
`len(glob("*.laz"))`, never by adding the staged count to the stored
value — and an empty staging directory is not an error: with no prior
staging leftovers and an engine that wrote nothing, the item still
succeeds and commits the recount of the destination. -/
theorem C3_recount : ∀ (e : List String → EngineResult) (polys : List String)
    (n : Nat) (s : TileState),
    (∀ c : Nat, (runTile e polys n s).2 = RunResult.success c →
      ((runTile e polys n s).1).log = some (n, ((runTile e polys n s).1).dest.length)) ∧
    (readPrev s.log < n → s.temp = [] →
      e (pipelineRequest polys (readPrev s.log) n) = EngineResult.ok [] 0 →
      runTile e polys n s
        = ({ s with temp := [], log := some (n, s.dest.length) }, RunResult.success 0)) := by
  intro e polys n s
  constructor
  · intro c h
    exact runTile_success_log e polys n s c h
  · intro h1 h2 he
    have hemp : writeFiles s.temp ([] : List (Nat × Nat)) = [] := by
      simp only [writeFiles, List.foldl_nil, h2]
    rw [runTile_eval_ok_empty e polys n s [] 0 (not_le.mpr h1) he hemp]
    rw [hemp]

/-- C3 (witness): an engine returning no files over destination `[(0, 3)]`
still succeeds and commits `(2, 1)` — the recount of the one destination
file. -/
theorem C3_recount_witness :
    runTile (fun _ => EngineResult.ok [] 0) ["a", "b"] 2 ⟨none, [(0, 3)], []⟩
      = (⟨some (2, 1), [(0, 3)], []⟩, RunResult.success 0) :=
  (C3_recount (fun _ => EngineResult.ok [] 0) ["a", "b"] 2 ⟨none, [(0, 3)], []⟩).2
    (by decide) rfl rfl

/-! ## C5: the oversized-tile corrector -/

/-- C5 (confirmed): `check_invalid_and_correct` coincides with the spec's
description: when both extents are within the 1000-unit threshold the
points pass through unchanged; otherwise the points are partitioned at the
arithmetic midpoint `(min+max)/2` of the axis with the larger extent into
the below-center and at-or-above-center sets and the larger set is
retained, ties favouring the below-center set — so the retained subset
always holds at least as many points as the discarded one (one output per
input). -/
theorem C5_corrector : ∀ pts : List (ℚ × ℚ), pts ≠ [] →
    check_invalid_and_correct pts = spec_corrector pts ∧
    (x_length pts ≤ 1000 ∧ y_length pts ≤ 1000 → check_invalid_and_correct pts = pts) ∧
    2 * (check_invalid_and_correct pts).length ≥ pts.length := by
  intro pts _
  refine ⟨check_eq_spec pts, ?_, ?_⟩
  · intro h
    unfold check_invalid_and_correct
    rw [if_neg (by push_neg; exact h)]
  · rw [check_eq_spec]
    unfold spec_corrector
    by_cases hx : x_length pts ≤ 1000 ∧ y_length pts ≤ 1000
    · rw [if_pos hx]; omega
    · rw [if_neg hx]
      exact kept_ge_half pts _ _

/-- C5 (witness): the spec's own scenario: a tile with x-extent 1500 and
y-extent 200 is split along x (center 750), retaining the three
below-center points and discarding the single point beyond — retained
count 3 ≥ discarded count 1; a small tile passes through unchanged. -/
theorem C5_corrector_witness :
    (check_invalid_and_correct [((0 : ℚ), (0 : ℚ)), (1500, 0), (10, 200), (20, 50)]
        = spec_corrector [((0 : ℚ), (0 : ℚ)), (1500, 0), (10, 200), (20, 50)] ∧
      2 * (check_invalid_and_correct
            [((0 : ℚ), (0 : ℚ)), (1500, 0), (10, 200), (20, 50)]).length
        ≥ ([((0 : ℚ), (0 : ℚ)), (1500, 0), (10, 200), (20, 50)] : List (ℚ × ℚ)).length) ∧
    check_invalid_and_correct [((0 : ℚ), (0 : ℚ)), (1, 1)] = [((0 : ℚ), (0 : ℚ)), (1, 1)] ∧
    x_length [((0 : ℚ), (0 : ℚ)), (1500, 0), (10, 200), (20, 50)] = 1500 ∧
    y_length [((0 : ℚ), (0 : ℚ)), (1500, 0), (10, 200), (20, 50)] = 200 ∧
    check_invalid_and_correct [((0 : ℚ), (0 : ℚ)), (1500, 0), (10, 200), (20, 50)]
      = [(0, 0), (10, 200), (20, 50)] :=
  ⟨⟨(C5_corrector [((0 : ℚ), (0 : ℚ)), (1500, 0), (10, 200), (20, 50)] (by decide)).1,
    (C5_corrector [((0 : ℚ), (0 : ℚ)), (1500, 0), (10, 200), (20, 50)] (by decide)).2.2⟩,
   (C5_corrector [((0 : ℚ), (0 : ℚ)), (1, 1)] (by decide)).2.1
     (by norm_num [x_length, y_length, xvals, yvals, listMin, listMax, max_def, min_def]),
   by norm_num [x_length, xvals, listMin, listMax, max_def, min_def],
   by norm_num [y_length, yvals, listMin, listMax, max_def, min_def],
   by norm_num [check_invalid_and_correct, x_length, y_length, xvals, yvals, listMin,
     listMax, max_def, min_def, return_bigger_tile_mask, center, applyMask]⟩

/-! ## C7: failure capture -/

/-- C7 (counterexample): in the invalid-filter batch, an item whose worker
raises an `OSError` (not one of the caught classes `ValueError`,
`LaspyException`, `LazrsError`) makes the collection loop propagate the
exception: the returned value is an error, not a result list — the sibling
item's result `"done"` is lost, so not every per-item failure is captured
in the batch result list. -/
theorem C7_counterexample :
    collectInvalidFilter [ItemOutcome.raised ExcKind.osError, ItemOutcome.ok "done"]
      = Except.error ExcKind.osError := rfl

/-- C7 (amended): in the download pipeline, an engine exception aborts the
work item with no promotion: the destination files and the progress record
are exactly as before the item ran, and the failure is returned as this
item's result entry — the download collector yields one entry per
submission and never propagates, since the worker catches all exceptions
itself.  In the invalid-filter batch, only `TimeoutError`, `ValueError`,
laspy and lazrs errors are captured as entries; when every raised
exception is of a caught class the collector returns one entry per item,
but any other exception propagates and aborts collection of the remaining
items. -/
theorem C7_failure_capture :
    (∀ (e : List String → EngineResult) (polys : List String) (n : Nat) (s : TileState),
      (runTile e polys n s).2 = RunResult.failed →
      ((runTile e polys n s).1).dest = s.dest ∧ ((runTile e polys n s).1).log = s.log) ∧
    (∀ outs : List ItemOutcome,
      (∀ ex : ExcKind, ItemOutcome.raised ex ∈ outs → caughtByFilter ex = true) →
      ∃ rs : List String, collectInvalidFilter outs = Except.ok rs ∧
        rs.length = outs.length) ∧
    (∀ outs : List DlOutcome, (collectDownload outs).length = outs.length) := by
  refine ⟨runTile_failed_frame, ?_, fun outs => List.length_map outs dlEntry⟩
  intro outs
  induction outs with
  | nil => exact fun _ => ⟨[], rfl, rfl⟩
  | cons o rest ih =>
    intro h
    obtain ⟨rs, hrs, hlen⟩ := ih (fun ex hex => h ex (List.mem_cons_of_mem _ hex))
    cases o with
    | ok m =>
      refine ⟨m :: rs, ?_, by simp [hlen]⟩
      simp [collectInvalidFilter, hrs, Except.map]
    | timedOut =>
      refine ⟨"timeout error" :: rs, ?_, by simp [hlen]⟩
      simp [collectInvalidFilter, hrs, Except.map]
    | raised ex =>
      have hc : caughtByFilter ex = true := h ex (List.mem_cons_self _ _)
      refine ⟨errString ex :: rs, ?_, by simp [hlen]⟩
      simp [collectInvalidFilter, hc, hrs, Except.map]

/-- C7 (witness): the amended statement applied at concrete inputs: a
failing engine leaves destination `[(4, 4)]` and record `(9, 1)` intact,
and a batch with no uncaught exception collects one entry per item. -/
theorem C7_failure_capture_witness :
    (((runTile (fun _ => EngineResult.err [(0, 1)]) ["a"] 1
        ⟨none, [(4, 4)], []⟩).1).dest = [(4, 4)] ∧
      ((runTile (fun _ => EngineResult.err [(0, 1)]) ["a"] 1
        ⟨none, [(4, 4)], []⟩).1).log = none) ∧
    ∃ rs : List String,
      collectInvalidFilter [ItemOutcome.ok "a", ItemOutcome.timedOut] = Except.ok rs ∧
      rs.length = [ItemOutcome.ok "a", ItemOutcome.timedOut].length := by
  constructor
  · exact C7_failure_capture.1 (fun _ => EngineResult.err [(0, 1)]) ["a"] 1
      ⟨none, [(4, 4)], []⟩ rfl
  · exact C7_failure_capture.2.1 [ItemOutcome.ok "a", ItemOutcome.timedOut]
      (by intro ex hex; simp at hex)

/-! ## C8: timeout supervision -/

/-- C8 (counterexample): with timeout 10, an item completing at time 8
followed by an item completing at time 15: the supervisor waits 8 for the
first, then up to 18 for the second, so the second item — which ran for
15 > 10, exceeding its claimed independent wall-clock timeout — is
collected as a success, not recorded as a timeout failure. -/
theorem C8_counterexample :
    collectTimed 10 0 [(8, 100), (15, 200)] = [some 100, some 200] ∧ 10 < 15 := by
  decide

/-- C8 (amended): the supervisor collects results sequentially in
submission order, one entry per submission (positional association, each
item submitted exactly once); an item is marked timed out exactly when its
completion time exceeds the supervisor's current clock — the time already
spent collecting earlier results — plus the timeout, so every item
completing within the timeout of run start is collected as a success, but
a late item can escape the timeout mark when earlier collections advanced
the clock. -/
theorem C8_timeout :
    (∀ (T clock : Nat) (items : List (Nat × Nat)),
      (collectTimed T clock items).length = items.length) ∧
    (∀ (T clock : Nat) (items : List (Nat × Nat)), (∀ p ∈ items, p.1 ≤ T) →
      collectTimed T clock items = items.map (fun p => some p.2)) ∧
    (∀ (T clock t v : Nat) (rest : List (Nat × Nat)), clock + T < t →
      collectTimed T clock ((t, v) :: rest) = none :: collectTimed T (clock + T) rest) ∧
    (∀ (T clock t v : Nat) (rest : List (Nat × Nat)), t ≤ clock + T →
      collectTimed T clock ((t, v) :: rest) = some v :: collectTimed T (max clock t) rest) := by
  refine ⟨?_, ?_, ?_, ?_⟩
  · intro T clock items
    induction items generalizing clock with
    | nil => rfl
    | cons p rest ih =>
      obtain ⟨t, v⟩ := p
      by_cases h : t ≤ clock + T <;> simp [collectTimed, h, ih]
  · intro T clock items
    induction items generalizing clock with
    | nil => exact fun _ => rfl
    | cons p rest ih =>
      intro h
      obtain ⟨t, v⟩ := p
      have ht : t ≤ clock + T :=
        Nat.le_trans (h (t, v) (List.mem_cons_self _ _)) (Nat.le_add_left T clock)
      simp only [collectTimed, ht, if_true, List.map_cons]
      rw [ih (max clock t) (fun q hq => h q (List.mem_cons_of_mem _ hq))]
  · intro T clock t v rest h
    simp [collectTimed, Nat.not_le.mpr h]
  · intro T clock t v rest h
    simp [collectTimed, h]

/-- C8 (witness): the amended statement applied at concrete inputs: all
items within the timeout are collected positionally as successes, and an
item completing after `clock + T` is marked as a timeout. -/
theorem C8_timeout_witness :
    collectTimed 5 0 [(3, 9), (4, 11)] = [(3, 9), (4, 11)].map (fun p => some p.2) ∧
    collectTimed 1 0 [(5, 2)] = none :: collectTimed 1 (0 + 1) [] :=
  ⟨C8_timeout.2.1 5 0 [(3, 9), (4, 11)] (by decide),
   C8_timeout.2.2.1 1 0 5 2 [] (by decide)⟩

/-! ## C9: the promotion mapping and collisions -/

/-- C9 (counterexample): destination already holds shard 5 with content
10; a work item with resume offset 5 stages local shard 0, whose global id
`5 + 0` collides with the existing file.  The run completes with
`RunResult.success` — no error or anomaly is surfaced — and the existing
destination file is silently replaced by the staged one (content 99). -/
theorem C9_counterexample :
    flookup [(5, 10)] 5 = some 10 ∧
    promote 5 [(0, 99)] [(5, 10)] = [(5, 99)] ∧
    runTile (fun _ => EngineResult.ok [(0, 99)] 1) ["a", "b", "c", "d", "e", "f"] 6
        ⟨some (5, 1), [(5, 10)], []⟩
      = (⟨some (6, 1), [(5, 99)], []⟩, RunResult.success 1) :=
  ⟨rfl, rfl, rfl⟩

/-- C9 (amended): the promotion map `local id ↦ resume_offset + local id`
is injective, so distinct staged shards of one batch land on distinct
global ids: each staged file `(i, c)` ends up at destination id
`offset + i` with its own content, and a destination file whose id
collides with no staged shard keeps its content.  A collision with a file
already present at the destination, however, is silently overwritten by
`os.rename` — no error or anomaly is raised. -/
theorem C9_promotion : ∀ offset : Nat,
    Function.Injective (globalId offset) ∧
    (∀ (staged dest : List (Nat × Nat)) (k : Nat),
      (∀ p ∈ staged, globalId offset p.1 ≠ k) →
      flookup (promote offset staged dest) k = flookup dest k) ∧
    (∀ (staged dest : List (Nat × Nat)) (i c : Nat),
      (staged.map Prod.fst).Nodup → (i, c) ∈ staged →
      flookup (promote offset staged dest) (globalId offset i) = some c) := by
  intro offset
  refine ⟨fun a b h => by simpa [globalId] using h, flookup_promote_notin_aux offset, ?_⟩
  · intro staged
    induction staged with
    | nil => intro dest i c _ hmem; exact absurd hmem (List.not_mem_nil _)
    | cons q rest ih =>
      intro dest i c hnd hmem
      rw [promote_cons]
      rcases List.mem_cons.mp hmem with heq | hmem2
      · subst heq
        have hni : ∀ p ∈ rest, globalId offset p.1 ≠ globalId offset i := by
          intro p hp hg
          have hmemmap : i ∈ rest.map Prod.fst := by
            have : p.1 = i := Nat.add_left_cancel hg
            exact this ▸ List.mem_map_of_mem Prod.fst hp
          exact (List.nodup_cons.mp (by simpa using hnd)).1 hmemmap
        rw [flookup_promote_notin_aux offset rest _ _ hni]
        exact flookup_insertReplace_self dest (globalId offset i) c
      · exact ih _ i c (List.nodup_cons.mp (by simpa using hnd)).2 hmem2

/-- C9 (witness): the amended statement applied at concrete inputs: the
staged shard `(0, 4)` of a batch at offset 3 is found at global id 3, and
the untouched destination file 9 keeps its content. -/
theorem C9_promotion_witness :
    flookup (promote 3 [(0, 4)] [(9, 7)]) (globalId 3 0) = some 4 ∧
    flookup (promote 3 [(0, 4)] [(9, 7)]) 9 = flookup [(9, 7)] 9 :=
  ⟨(C9_promotion 3).2.2 [(0, 4)] [(9, 7)] 0 4 (by decide) (by decide),
   (C9_promotion 3).2.1 [(0, 4)] [(9, 7)] 9 (by decide)⟩

/-! ## C10: staging is not discarded -/

/-- C10 (counterexample): a work item whose engine wrote local shard 0 and
then raised leaves that file sitting in `temp_download` — the staging
directory is not discarded on failure — and the next dispatch for the same
tile lists the leftover along with its own output and promotes both: the
stale shard from the failed dispatch becomes destination file 0. -/
theorem C10_counterexample :
    ((runTile (fun _ => EngineResult.err [(0, 7)]) ["a", "b"] 2 ⟨none, [], []⟩).1).temp
      = [(0, 7)] ∧
    ((runTile (fun _ => EngineResult.ok [(1, 8)] 4) ["a", "b"] 2
        (runTile (fun _ => EngineResult.err [(0, 7)]) ["a", "b"] 2 ⟨none, [], []⟩).1).1).dest
      = [(0, 7), (1, 8)] :=
  ⟨rfl, rfl⟩

/-- C10 (amended): after a successful reconciliation the staging directory
is left empty — every staged file was promoted out — but the directory's
contents are not discarded on failure: a failed item changes neither the
destination nor the progress record, while whatever the engine wrote
remains in staging (and a skipped item changes nothing at all), so staging
files of a failed dispatch are visible to the next dispatch for the same
tile. -/
theorem C10_staging : ∀ (e : List String → EngineResult) (polys : List String)
    (n : Nat) (s : TileState),
    (∀ c : Nat, (runTile e polys n s).2 = RunResult.success c →
      ((runTile e polys n s).1).temp = []) ∧
    ((runTile e polys n s).2 = RunResult.failed →
      ((runTile e polys n s).1).dest = s.dest ∧ ((runTile e polys n s).1).log = s.log) ∧
    ((runTile e polys n s).2 = RunResult.skipped → (runTile e polys n s).1 = s) := by
  intro e polys n s
  exact ⟨fun c h => runTile_success_temp e polys n s c h,
    fun h => runTile_failed_frame e polys n s h,
    fun h => runTile_skipped_frame e polys n s h⟩

/-- C10 (witness): the amended statement applied at concrete inputs: a
successful promotion empties staging, and a failed run keeps destination
and record intact. -/
theorem C10_staging_witness :
    ((runTile (fun _ => EngineResult.ok [(0, 9)] 3) ["a"] 1 ⟨none, [], []⟩).1).temp = [] ∧
    ((runTile (fun _ => EngineResult.err []) ["a"] 1 ⟨none, [(2, 2)], []⟩).1).dest
      = [(2, 2)] :=
  ⟨(C10_staging (fun _ => EngineResult.ok [(0, 9)] 3) ["a"] 1 ⟨none, [], []⟩).1 3 rfl,
   ((C10_staging (fun _ => EngineResult.err []) ["a"] 1 ⟨none, [(2, 2)], []⟩).2.1 rfl).1⟩

end Usgs
